import Mathlib

/-!
Shallow embedding of the catbox-redis cache adapter (src/lib/index.js).

Modelling conventions:
* JavaScript values that survive JSON serialization are modelled by `JSValue`
  (numbers as integers, object keys as Lean strings).
* JavaScript strings that flow through `encodeURIComponent` (segment, id,
  partition) are modelled as lists of UTF-8 code units (`List Nat`, each
  byte `< 256` where it matters), so that percent-encoding is byte-accurate.
* The injected ioredis client is modelled by an explicit `Client` state:
  a `status` string, a key/value `store`, a prescribed outcome for
  `connect()`, and a `log` of the remote calls issued, threaded through
  every adapter operation.  An operation that returns the state unchanged
  issued no remote call.
* `JSON.stringify` followed by `JSON.parse` is the identity on acyclic
  JSON-representable values, so the slot written by `set` holds the
  envelope `JSValue` directly; raw texts written by other producers are
  modelled by the other `Slot` constructors, which record exactly the
  distinctions the `get` code path makes about the raw text.
* A thrown JavaScript exception is an `Except.error`; accessing a property
  of `null`/`undefined` (e.g. `key.segment` when `key` is null) raises a
  `TypeError`, modelled as `JsError.typeError`.
-/

/-- JSON-representable JavaScript values (the image of `JSON.parse`). -/
inductive JSValue where
  | null
  | bool (b : Bool)
  | num (n : Int)
  | str (s : String)
  | arr (elems : List JSValue)
  | obj (fields : List (String × JSValue))

/-- JavaScript truthiness: `null`, `false`, `0` and the empty string are falsy;
arrays and objects are always truthy. -/
def JSValue.falsy : JSValue → Bool
  | .null => true
  | .bool b => !b
  | .num n => n == 0
  | .str s => s == ""
  | .arr _ => false
  | .obj _ => false

def lookupField (fields : List (String × JSValue)) (name : String) : Option JSValue :=
  match fields with
  | [] => none
  | (k, v) :: rest => if k = name then some v else lookupField rest name

/-- JavaScript property access `v[name]`; `none` models `undefined`.
Objects produced by `JSON.parse` have unique keys, so first-match lookup
agrees with JavaScript property semantics on them. -/
def JSValue.field : JSValue → String → Option JSValue
  | .obj fields, name => lookupField fields name
  | _, _ => none

def itemKey : String := "item"
def storedKey : String := "stored"
def ttlKey : String := "ttl"

/-- JavaScript `!x` on a possibly-`undefined` value: true when the value is
absent (`undefined`) or falsy. -/
def notTruthy : Option JSValue → Bool
  | none => true
  | some v => v.falsy

/-- JavaScript strict comparison `x === 0` on a possibly-`undefined` value:
only the number `0` passes. -/
def strictEqZero : Option JSValue → Bool
  | some (.num n) => n == 0
  | _ => false

/-- The source condition `(!envelope.item && envelope.item !== 0)`: the item
fails the presence check when it is absent or falsy, unless it is the
number `0` exactly. -/
def itemAbsentCheck (item : Option JSValue) : Bool :=
  notTruthy item && !(strictEqZero item)

/-- Errors raised by the adapter. `notConnected` is the distinguished
`NotConnectedError` subclass; `error msg` is a generic `new Error(msg)`;
`typeError` is the `TypeError` raised by property access on `null`. -/
inductive JsError where
  | notConnected
  | error (msg : String)
  | typeError
deriving DecidableEq, Repr

def badEnvelopeMsg : String := "Bad envelope content"
def incorrectEnvelopeMsg : String := "Incorrect envelope structure"
def emptyStringMsg : String := "Empty string"
def nullCharMsg : String := "Includes null character"

/-- What a raw text stored at a key looks like to the `get` code path:
`absent` = the client resolves `null`; `emptyText` = the stored raw text is
`""` (falsy, indistinguishable from absent to the code); `unparsable` = a
text `JSON.parse` throws on; `value v` = a text that parses to `v`. -/
inductive Slot where
  | absent
  | emptyText
  | unparsable
  | value (v : JSValue)

/-- One remote call on the injected client, as recorded in the log. -/
inductive RemoteCall where
  | connect
  | get (key : List Nat)
  | setex (key : List Nat) (envelope : JSValue) (expirySeconds : Int)
  | del (key : List Nat)

def waitStatus : String := "wait"
def readyStatus : String := "ready"
def closeStatus : String := "close"

/-- State of the injected ioredis client.  `connectResult` is the outcome the
environment has in store for a `connect()` call; `log` records every remote
call issued through the client. -/
structure Client where
  status : String
  store : List (List Nat × Slot)
  connectResult : Except JsError Unit
  log : List RemoteCall

def storeLookup : List (List Nat × Slot) → List Nat → Slot
  | [], _ => .absent
  | (k, s) :: rest, key => if k = key then s else storeLookup rest key

def storeDel (store : List (List Nat × Slot)) (key : List Nat) :
    List (List Nat × Slot) :=
  store.filter (fun p => p.1 ≠ key)

/-- Bytes left unescaped by `encodeURIComponent`:
`A-Z a-z 0-9 - _ . ! ~ * ' ( )`. -/
def isUnreservedByte (b : Nat) : Bool :=
  (65 ≤ b && b ≤ 90) || (97 ≤ b && b ≤ 122) || (48 ≤ b && b ≤ 57) ||
  b == 45 || b == 95 || b == 46 || b == 33 || b == 126 || b == 42 ||
  b == 39 || b == 40 || b == 41

/-- Uppercase hexadecimal digit of a nibble, as a byte. -/
def hexDigit (n : Nat) : Nat :=
  if n < 10 then 48 + n else 55 + n

/-- Percent-encoding of a single byte: unreserved bytes stand for themselves,
every other byte becomes `%XY` (37 is the byte of the percent sign). -/
def encByte (b : Nat) : List Nat :=
  if isUnreservedByte b then [b] else [37, hexDigit (b / 16), hexDigit (b % 16)]

/-- `encodeURIComponent` on a UTF-8 byte sequence. -/
def encodeURIComponent : List Nat → List Nat
  | [] => []
  | b :: rest => encByte b ++ encodeURIComponent rest

/-- `parts.join(':')`; 58 is the byte of the colon. -/
def joinColon : List (List Nat) → List Nat
  | [] => []
  | [p] => p
  | p :: rest => p ++ 58 :: joinColon rest

/-- A catbox cache key `{ segment, id }`, both JavaScript strings, modelled
as UTF-8 byte sequences. -/
structure CacheKey where
  segment : List Nat
  id : List Nat
deriving DecidableEq, Repr

/-- The adapter.  The injected client lives in the explicitly threaded
`Client` state; the optional partition is fixed at construction. -/
structure CatboxRedis where
  partition : Option (List Nat)

/-- `isReady()`: true iff the client status is `'ready'`. -/
def CatboxRedis.isReady (_a : CatboxRedis) (c : Client) : Bool :=
  c.status == readyStatus

/-- `start()`: a no-op unless the client status is `'wait'`; otherwise issues
one `connect()` call, whose outcome is propagated and moves the status to
`'ready'` on success and `'close'` on failure (in ioredis the status never
returns to `'wait'` after a connect attempt). -/
def CatboxRedis.start (_a : CatboxRedis) (c : Client) :
    Except JsError Unit × Client :=
  if c.status ≠ waitStatus then (.ok (), c)
  else
    (c.connectResult,
     { c with
         log := c.log ++ [RemoteCall.connect],
         status :=
           match c.connectResult with
           | .ok _ => readyStatus
           | .error _ => closeStatus })

/-- `stop()`: a no-op. -/
def CatboxRedis.stop (_a : CatboxRedis) (c : Client) : Unit × Client :=
  ((), c)

/-- `validateSegmentName(name)`: `some msg` models returning `new Error(msg)`,
`none` models returning `null` (valid). -/
def CatboxRedis.validateSegmentName (_a : CatboxRedis) (name : List Nat) :
    Option String :=
  if name = [] then some emptyStringMsg
  else if name.contains 0 then some nullCharMsg
  else none

/-- `generateKey(key)`: partition (when configured), segment and id are each
percent-encoded and joined with `':'`.  The key is nullable as in
JavaScript: `key.segment` on a null key raises a `TypeError`. -/
def CatboxRedis.generateKey (a : CatboxRedis) (key : Option CacheKey) :
    Except JsError (List Nat) :=
  match key with
  | none => .error .typeError
  | some k =>
    let parts : List (List Nat) :=
      (match a.partition with
       | some p => [encodeURIComponent p]
       | none => []) ++
      [encodeURIComponent k.segment, encodeURIComponent k.id]
    .ok (joinColon parts)

/-- `get(key)`: readiness gate, key generation, remote `get`, then the
envelope decode-and-validate classification of the source. -/
def CatboxRedis.get (a : CatboxRedis) (key : Option CacheKey) (c : Client) :
    Except JsError (Option JSValue) × Client :=
  if !(a.isReady c) then (.error .notConnected, c)
  else
    match a.generateKey key with
    | .error e => (.error e, c)
    | .ok storageKey =>
      let c1 := { c with log := c.log ++ [RemoteCall.get storageKey] }
      let result : Except JsError (Option JSValue) :=
        match storeLookup c.store storageKey with
        | .absent => .ok none
        | .emptyText => .ok none
        | .unparsable => .error (.error badEnvelopeMsg)
        | .value envelope =>
          if envelope.falsy then .error (.error badEnvelopeMsg)
          else if itemAbsentCheck (envelope.field itemKey) ||
              notTruthy (envelope.field storedKey) then
            .error (.error incorrectEnvelopeMsg)
          else .ok (some envelope)
      (result, c1)

/-- The envelope written by `set`: `{ item: value, stored: Date.now(), ttl }`;
`now` is the current epoch time in milliseconds, passed explicitly. -/
def makeEnvelope (value : JSValue) (now ttl : Int) : JSValue :=
  .obj [(itemKey, value), (storedKey, .num now), (ttlKey, .num ttl)]

/-- The expiry argument of the remote set:
`Math.max(1, Math.floor(ttl / 1000))` (`Int.fdiv` is floor division). -/
def expirySeconds (ttl : Int) : Int :=
  max 1 (Int.fdiv ttl 1000)

/-- `set(key, value, ttl)`: readiness gate, key generation, then one remote
`set(cacheKey, serializedEnvelope, 'ex', expirySeconds)`, unconditionally. -/
def CatboxRedis.set (a : CatboxRedis) (key : Option CacheKey) (value : JSValue)
    (ttl : Int) (now : Int) (c : Client) : Except JsError Unit × Client :=
  if !(a.isReady c) then (.error .notConnected, c)
  else
    match a.generateKey key with
    | .error e => (.error e, c)
    | .ok cacheKey =>
      let envelope := makeEnvelope value now ttl
      (.ok (),
       { c with
           log := c.log ++ [RemoteCall.setex cacheKey envelope (expirySeconds ttl)],
           store := (cacheKey, Slot.value envelope) :: c.store })

/-- `drop(key)`: readiness gate, key generation, then one remote `del`,
returning the deleted-key count from the client. -/
def CatboxRedis.drop (a : CatboxRedis) (key : Option CacheKey) (c : Client) :
    Except JsError Int × Client :=
  if !(a.isReady c) then (.error .notConnected, c)
  else
    match a.generateKey key with
    | .error e => (.error e, c)
    | .ok storageKey =>
      let deleted : Int :=
        match storeLookup c.store storageKey with
        | .absent => 0
        | _ => 1
      (.ok deleted,
       { c with
           log := c.log ++ [RemoteCall.del storageKey],
           store := storeDel c.store storageKey })

/-! ### Percent-encoding: decoding and injectivity -/

/-- Numeric value of an uppercase hexadecimal digit byte. -/
def hexVal (c : Nat) : Nat :=
  if c < 58 then c - 48 else c - 55

mutual

/-- Percent-decoding, inverse of `encodeURIComponent` on its image. -/
def decURI : List Nat → List Nat
  | [] => []
  | b :: rest => if b = 37 then decURIEsc rest else b :: decURI rest
  termination_by l => l.length

/-- Continuation of `decURI` after a percent sign: reads two hex digits. -/
def decURIEsc : List Nat → List Nat
  | h :: l :: rest2 => (hexVal h * 16 + hexVal l) :: decURI rest2
  | _ => []
  termination_by l => l.length

end

theorem hexVal_hexDigit (n : Nat) (h : n < 16) : hexVal (hexDigit n) = n := by
  by_cases h10 : n < 10
  · rw [hexDigit, if_pos h10, hexVal, if_pos (by omega)]
    omega
  · rw [hexDigit, if_neg h10, hexVal, if_neg (by omega)]
    omega

theorem hexDigit_ne_colon (n : Nat) : hexDigit n ≠ 58 := by
  unfold hexDigit
  split <;> omega

theorem colon_not_mem_encByte (b : Nat) : 58 ∉ encByte b := by
  unfold encByte
  split
  · rename_i hres
    intro hmem
    rw [List.mem_singleton] at hmem
    subst hmem
    simp [isUnreservedByte] at hres
  · intro hmem
    simp only [List.mem_cons, List.not_mem_nil, or_false] at hmem
    rcases hmem with h | h | h
    · omega
    · exact hexDigit_ne_colon _ h.symm
    · exact hexDigit_ne_colon _ h.symm

theorem colon_not_mem_encode (s : List Nat) : 58 ∉ encodeURIComponent s := by
  induction s with
  | nil => simp [encodeURIComponent]
  | cons b rest ih =>
    rw [encodeURIComponent, List.mem_append]
    rintro (h | h)
    · exact colon_not_mem_encByte b h
    · exact ih h

theorem decURI_encByte (b : Nat) (h : b < 256) (t : List Nat) :
    decURI (encByte b ++ t) = b :: decURI t := by
  unfold encByte
  split
  · rename_i hres
    have hb : b ≠ 37 := by
      intro hb
      subst hb
      simp [isUnreservedByte] at hres
    rw [List.cons_append, List.nil_append, decURI, if_neg hb]
  · have hdiv : b / 16 < 16 := by omega
    have hmod : b % 16 < 16 := Nat.mod_lt _ (by omega)
    rw [List.cons_append, List.cons_append, List.cons_append, List.nil_append,
      decURI, if_pos rfl, decURIEsc, hexVal_hexDigit _ hdiv, hexVal_hexDigit _ hmod]
    have hb : b / 16 * 16 + b % 16 = b := by omega
    rw [hb]

theorem decURI_encode (s : List Nat) (h : ∀ b ∈ s, b < 256) (t : List Nat) :
    decURI (encodeURIComponent s ++ t) = s ++ decURI t := by
  induction s with
  | nil => simp [encodeURIComponent]
  | cons b rest ih =>
    rw [encodeURIComponent, List.append_assoc,
      decURI_encByte b (h b (List.mem_cons_self b rest)) _]
    rw [ih (fun x hx => h x (List.mem_cons_of_mem b hx))]
    rfl

theorem encode_injective (s1 s2 : List Nat) (h1 : ∀ b ∈ s1, b < 256)
    (h2 : ∀ b ∈ s2, b < 256) (heq : encodeURIComponent s1 = encodeURIComponent s2) :
    s1 = s2 := by
  have e1 := decURI_encode s1 h1 []
  have e2 := decURI_encode s2 h2 []
  simp only [decURI, List.append_nil] at e1 e2
  rw [← e1, ← e2, heq]

theorem split_colon (a : List Nat) : ∀ (c b d : List Nat), 58 ∉ a → 58 ∉ c →
    a ++ 58 :: b = c ++ 58 :: d → a = c ∧ b = d := by
  induction a with
  | nil =>
    intro c b d _ hc h
    cases c with
    | nil => exact ⟨rfl, by simpa using h⟩
    | cons y c2 =>
      simp only [List.nil_append, List.cons_append, List.cons.injEq] at h
      obtain ⟨h1, _⟩ := h
      subst h1
      exact absurd (List.mem_cons_self _ _) hc
  | cons x a2 ih =>
    intro c b d ha hc h
    cases c with
    | nil =>
      simp only [List.cons_append, List.nil_append, List.cons.injEq] at h
      obtain ⟨h1, _⟩ := h
      subst h1
      exact absurd (List.mem_cons_self _ _) ha
    | cons y c2 =>
      simp only [List.cons_append, List.cons.injEq] at h
      have ha2 : 58 ∉ a2 := fun hm => ha (List.mem_cons_of_mem x hm)
      have hc2 : 58 ∉ c2 := fun hm => hc (List.mem_cons_of_mem y hm)
      obtain ⟨he, hb⟩ := ih c2 b d ha2 hc2 h.2
      exact ⟨by rw [h.1, he], hb⟩

theorem joinColon_pair (x y : List Nat) : joinColon [x, y] = x ++ 58 :: y := rfl

theorem joinColon_triple (x y z : List Nat) :
    joinColon [x, y, z] = x ++ 58 :: (y ++ 58 :: z) := rfl

theorem generateKey_no_partition (a : CatboxRedis) (k : CacheKey)
    (h : a.partition = none) :
    a.generateKey (some k)
      = .ok (encodeURIComponent k.segment ++ 58 :: encodeURIComponent k.id) := by
  simp [CatboxRedis.generateKey, h, joinColon_pair]

theorem generateKey_with_partition (a : CatboxRedis) (k : CacheKey) (p : List Nat)
    (h : a.partition = some p) :
    a.generateKey (some k)
      = .ok (encodeURIComponent p ++ 58 ::
          (encodeURIComponent k.segment ++ 58 :: encodeURIComponent k.id)) := by
  simp [CatboxRedis.generateKey, h, joinColon_triple]

/-- C8: `generateKey` is a pure function of the key alone (it is embedded as a
Lean function, so determinism and purity hold by construction), and under the
same partition two cache keys that differ in segment or id generate different
storage keys: percent-encoding each component makes the colon-joined result
collision-free. -/
theorem generateKey_collision_free (a : CatboxRedis) (k1 k2 : CacheKey)
    (h1s : ∀ b ∈ k1.segment, b < 256) (h1i : ∀ b ∈ k1.id, b < 256)
    (h2s : ∀ b ∈ k2.segment, b < 256) (h2i : ∀ b ∈ k2.id, b < 256)
    (hne : k1 ≠ k2) :
    a.generateKey (some k1) ≠ a.generateKey (some k2) := by
  intro heq
  apply hne
  have main : encodeURIComponent k1.segment ++ 58 :: encodeURIComponent k1.id
      = encodeURIComponent k2.segment ++ 58 :: encodeURIComponent k2.id →
      k1 = k2 := by
    intro h
    obtain ⟨hseg, hid⟩ := split_colon _ _ _ _
      (colon_not_mem_encode _) (colon_not_mem_encode _) h
    have e1 := encode_injective _ _ h1s h2s hseg
    have e2 := encode_injective _ _ h1i h2i hid
    cases k1
    cases k2
    simp_all
  cases hp : a.partition with
  | none =>
    rw [generateKey_no_partition a k1 hp, generateKey_no_partition a k2 hp] at heq
    injection heq with heq
    exact main heq
  | some p =>
    rw [generateKey_with_partition a k1 p hp, generateKey_with_partition a k2 p hp] at heq
    injection heq with heq
    obtain ⟨_, htail⟩ := split_colon _ _ _ _
      (colon_not_mem_encode p) (colon_not_mem_encode p) heq
    exact main htail

/-- Witness for C8 at concrete keys differing in the id, with partition `"p"`. -/
theorem generateKey_collision_free_witness :
    (∀ b ∈ ([97] : List Nat), b < 256) ∧ (∀ b ∈ ([98] : List Nat), b < 256) ∧
    (∀ b ∈ ([99] : List Nat), b < 256) ∧
    (⟨[97], [98]⟩ : CacheKey) ≠ ⟨[97], [99]⟩ ∧
    CatboxRedis.generateKey ⟨some [112]⟩ (some ⟨[97], [98]⟩)
      ≠ CatboxRedis.generateKey ⟨some [112]⟩ (some ⟨[97], [99]⟩) := by
  refine ⟨by decide, by decide, by decide, by decide,
    generateKey_collision_free ⟨some [112]⟩ ⟨[97], [98]⟩ ⟨[97], [99]⟩
      (by decide) (by decide) (by decide) (by decide) (by decide)⟩

/-! ### Concrete fixtures for counterexamples and witnesses -/

def a0 : CatboxRedis := ⟨none⟩

def k0 : CacheKey := ⟨[97], [98]⟩

def v0 : JSValue := .str "v"

def sk0 : List Nat := [97, 58, 98]

def readyClient : Client := ⟨readyStatus, [], .ok (), []⟩

def waitClient : Client := ⟨waitStatus, [], .ok (), []⟩

/-! ### Claims -/

/-- C5: while `isReady()` is false, each of get, set and drop rejects with the
distinguished NotConnectedError — a variant distinct from every generic
`Error` — and returns the client state (log included) unchanged, so no
remote call is performed. -/
theorem not_ready_rejects (a : CatboxRedis) (key : Option CacheKey) (v : JSValue)
    (ttl now : Int) (c : Client) (h : a.isReady c = false) :
    a.get key c = (.error .notConnected, c) ∧
    a.set key v ttl now c = (.error .notConnected, c) ∧
    a.drop key c = (.error .notConnected, c) ∧
    (∀ msg, JsError.notConnected = JsError.error msg → False) := by
  refine ⟨?_, ?_, ?_, fun msg hmsg => by cases hmsg⟩ <;>
    simp [CatboxRedis.get, CatboxRedis.set, CatboxRedis.drop, h]

/-- Witness for C5 on a client whose status is `'wait'`. -/
theorem not_ready_rejects_witness :
    a0.isReady waitClient = false ∧
    a0.get (some k0) waitClient = (.error .notConnected, waitClient) ∧
    a0.set (some k0) v0 1 1 waitClient = (.error .notConnected, waitClient) ∧
    a0.drop (some k0) waitClient = (.error .notConnected, waitClient) := by
  have h := not_ready_rejects a0 (some k0) v0 1 1 waitClient rfl
  exact ⟨rfl, h.1, h.2.1, h.2.2.1⟩

theorem start_noop_of_not_wait (a : CatboxRedis) (c : Client)
    (h : c.status ≠ waitStatus) : a.start c = (.ok (), c) := by
  simp [CatboxRedis.start, h]

theorem start_status_ne_wait (a : CatboxRedis) (c : Client) :
    (a.start c).2.status ≠ waitStatus := by
  by_cases hw : c.status = waitStatus
  · have hrw : (a.start c).2.status =
        match c.connectResult with
        | .ok _ => readyStatus
        | .error _ => closeStatus := by
      simp [CatboxRedis.start, hw]
    rw [hrw]
    cases c.connectResult with
    | ok u => exact (by decide : readyStatus ≠ waitStatus)
    | error e => exact (by decide : closeStatus ≠ waitStatus)
  · rw [start_noop_of_not_wait a c hw]
    exact hw

/-- C9: `start()` is a pure no-op (no connect call, state unchanged, success)
whenever the status is not `'wait'`; when the status is `'wait'` it issues
exactly one connect call and propagates its outcome unretried; and a second
`start()` after any first one never issues another connect: it returns the
state of the first unchanged. -/
theorem start_idempotent (a : CatboxRedis) (c : Client) :
    (c.status ≠ waitStatus → a.start c = (.ok (), c)) ∧
    (c.status = waitStatus →
      (a.start c).1 = c.connectResult ∧
      (a.start c).2.log = c.log ++ [RemoteCall.connect]) ∧
    a.start (a.start c).2 = (.ok (), (a.start c).2) := by
  refine ⟨start_noop_of_not_wait a c, fun hw => ?_,
    start_noop_of_not_wait a _ (start_status_ne_wait a c)⟩
  cases hr : c.connectResult <;> simp [CatboxRedis.start, hw, hr]

/-- Witness for C9: a ready client (no connect issued) and a waiting client
(one connect issued, then the repeated start is a no-op). -/
theorem start_idempotent_witness :
    readyClient.status ≠ waitStatus ∧
    a0.start readyClient = (.ok (), readyClient) ∧
    waitClient.status = waitStatus ∧
    (a0.start waitClient).1 = waitClient.connectResult ∧
    (a0.start waitClient).2.log = waitClient.log ++ [RemoteCall.connect] ∧
    a0.start (a0.start waitClient).2 = (.ok (), (a0.start waitClient).2) := by
  have h1 := start_idempotent a0 readyClient
  have h2 := start_idempotent a0 waitClient
  have hne : readyClient.status ≠ waitStatus := by decide
  exact ⟨hne, h1.1 hne, rfl, (h2.2.1 rfl).1, (h2.2.1 rfl).2, h2.2.2⟩

/-- C6: for every positive ttl (milliseconds), set on a ready adapter issues
one remote set whose expiry argument is exactly
`max 1 (floor (ttl / 1000))` whole seconds; it is always at least 1, and at
ttl = 1 it is exactly 1, never 0. -/
theorem set_expiry_floor (a : CatboxRedis) (k : CacheKey) (sk : List Nat)
    (v : JSValue) (ttl now : Int) (c : Client)
    (hready : a.isReady c = true) (hsk : a.generateKey (some k) = .ok sk)
    (httl : 0 < ttl) :
    (a.set (some k) v ttl now c).2.log
      = c.log ++ [RemoteCall.setex sk (makeEnvelope v now ttl)
          (max 1 (Int.fdiv ttl 1000))] ∧
    1 ≤ max 1 (Int.fdiv ttl 1000) ∧
    (ttl = 1 → max 1 (Int.fdiv ttl 1000) = 1) := by
  refine ⟨?_, le_max_left _ _, fun h1 => by subst h1; decide⟩
  simp [CatboxRedis.set, hready, hsk, expirySeconds]

/-- Witness for C6 at ttl = 1 millisecond. -/
theorem set_expiry_floor_witness :
    a0.isReady readyClient = true ∧
    a0.generateKey (some k0) = .ok sk0 ∧
    ((0 : Int) < 1) ∧
    (a0.set (some k0) v0 1 5 readyClient).2.log
      = [RemoteCall.setex sk0 (makeEnvelope v0 5 1) (max 1 (Int.fdiv 1 1000))] := by
  have h := set_expiry_floor a0 k0 sk0 v0 1 5 readyClient rfl rfl (by omega)
  exact ⟨rfl, rfl, by omega, h.1⟩

/-- C1 counterexample: at ttl = 0 on a ready adapter, set resolves
successfully but the client's set IS called: the log records one remote
write (with expiry 1 second), refuting the no-remote-write claim. -/
theorem set_zero_ttl_counterexample :
    (a0.set (some k0) v0 0 5 readyClient).1 = .ok () ∧
    (a0.set (some k0) v0 0 5 readyClient).2.log
      = [RemoteCall.setex sk0 (makeEnvelope v0 5 0) 1] :=
  ⟨rfl, rfl⟩

/-- C1 (amended): the source has no non-positive-ttl guard: for every valid
key, value and ttl ≤ 0, set on a ready adapter resolves successfully AND
performs exactly one remote write, with the expiry clamped to 1 second. -/
theorem set_nonpositive_ttl_writes (a : CatboxRedis) (k : CacheKey) (sk : List Nat)
    (v : JSValue) (ttl now : Int) (c : Client)
    (hready : a.isReady c = true) (hsk : a.generateKey (some k) = .ok sk)
    (httl : ttl ≤ 0) :
    (a.set (some k) v ttl now c).1 = .ok () ∧
    (a.set (some k) v ttl now c).2.log
      = c.log ++ [RemoteCall.setex sk (makeEnvelope v now ttl) 1] := by
  have hexp : expirySeconds ttl = 1 := by
    unfold expirySeconds
    rw [Int.fdiv_eq_ediv _ (by omega)]
    have hle : ttl / 1000 ≤ 1 := by omega
    exact max_eq_left hle
  constructor <;> simp [CatboxRedis.set, hready, hsk, hexp]

/-- Witness for C1 (amended) at ttl = -7. -/
theorem set_nonpositive_ttl_writes_witness :
    a0.isReady readyClient = true ∧
    a0.generateKey (some k0) = .ok sk0 ∧
    ((-7 : Int) ≤ 0) ∧
    (a0.set (some k0) v0 (-7) 5 readyClient).1 = .ok () ∧
    (a0.set (some k0) v0 (-7) 5 readyClient).2.log
      = [RemoteCall.setex sk0 (makeEnvelope v0 5 (-7)) 1] := by
  have h := set_nonpositive_ttl_writes a0 k0 sk0 v0 (-7) 5 readyClient rfl rfl (by omega)
  exact ⟨rfl, rfl, by omega, h.1, h.2⟩

theorem set_state (a : CatboxRedis) (k : CacheKey) (sk : List Nat) (v : JSValue)
    (ttl now : Int) (c : Client)
    (hready : a.isReady c = true) (hsk : a.generateKey (some k) = .ok sk) :
    (a.set (some k) v ttl now c).2
      = { c with
            log := c.log ++
              [RemoteCall.setex sk (makeEnvelope v now ttl) (expirySeconds ttl)],
            store := (sk, Slot.value (makeEnvelope v now ttl)) :: c.store } := by
  simp [CatboxRedis.set, hready, hsk]

theorem get_wellformed (a : CatboxRedis) (k : CacheKey) (sk : List Nat)
    (c : Client) (v : JSValue)
    (hready : a.isReady c = true) (hsk : a.generateKey (some k) = .ok sk)
    (hslot : storeLookup c.store sk = .value v)
    (hfalsy : v.falsy = false)
    (hitem : itemAbsentCheck (v.field itemKey) = false)
    (hstored : notTruthy (v.field storedKey) = false) :
    (a.get (some k) c).1 = .ok (some v) := by
  simp [CatboxRedis.get, hready, hsk, hslot, hfalsy, hitem, hstored]

/-- C3 counterexample: on a ready adapter, get with a null key does not
resolve to null: it rejects with the TypeError raised by reading `.segment`
of null. -/
theorem get_null_counterexample :
    (a0.get none readyClient).1 = .error .typeError ∧
    (a0.get none readyClient).1 ≠ .ok none :=
  ⟨rfl, fun h => Except.noConfusion h⟩

/-- C3 (amended): get with a null key never resolves to null: when the
adapter is not ready it rejects with NotConnectedError; when ready it
rejects with the TypeError from `key.segment` on a null key, and either
way the client state (log included) is unchanged, so no remote call is
issued. -/
theorem get_null_key_rejects (a : CatboxRedis) (c : Client) :
    (a.isReady c = false → a.get none c = (.error .notConnected, c)) ∧
    (a.isReady c = true → a.get none c = (.error .typeError, c)) := by
  constructor <;> intro h <;> simp [CatboxRedis.get, CatboxRedis.generateKey, h]

/-- Witness for C3 (amended) on a waiting and on a ready client. -/
theorem get_null_key_rejects_witness :
    a0.isReady waitClient = false ∧
    a0.get none waitClient = (.error .notConnected, waitClient) ∧
    a0.isReady readyClient = true ∧
    a0.get none readyClient = (.error .typeError, readyClient) :=
  ⟨rfl, (get_null_key_rejects a0 waitClient).1 rfl,
   rfl, (get_null_key_rejects a0 readyClient).2 rfl⟩

def kEmpty : CacheKey := ⟨[], []⟩

/-- C4 counterexample: a key of invalid shape (empty segment and empty id)
on a ready adapter is not rejected: get resolves without error and the
remote call IS issued, on the storage key `":"`. -/
theorem invalid_key_counterexample :
    (a0.get (some kEmpty) readyClient).1 = .ok none ∧
    (a0.get (some kEmpty) readyClient).2.log = [RemoteCall.get [58]] :=
  ⟨rfl, rfl⟩

/-- C4 (amended): the adapter performs no key-shape validation: on a ready
adapter, get, set and drop on any present key — empty segment or id
included — each proceed to exactly one remote call on the generated storage
key, and set resolves successfully. -/
theorem no_key_shape_validation (a : CatboxRedis) (k : CacheKey) (sk : List Nat)
    (v : JSValue) (ttl now : Int) (c : Client)
    (hready : a.isReady c = true) (hsk : a.generateKey (some k) = .ok sk) :
    (a.get (some k) c).2.log = c.log ++ [RemoteCall.get sk] ∧
    (a.set (some k) v ttl now c).2.log
      = c.log ++ [RemoteCall.setex sk (makeEnvelope v now ttl) (expirySeconds ttl)] ∧
    (a.set (some k) v ttl now c).1 = .ok () ∧
    (a.drop (some k) c).2.log = c.log ++ [RemoteCall.del sk] := by
  refine ⟨?_, ?_, ?_, ?_⟩ <;>
    simp [CatboxRedis.get, CatboxRedis.set, CatboxRedis.drop, hready, hsk]

/-- Witness for C4 (amended) at the empty-segment, empty-id key. -/
theorem no_key_shape_validation_witness :
    a0.isReady readyClient = true ∧
    a0.generateKey (some kEmpty) = .ok [58] ∧
    (a0.get (some kEmpty) readyClient).2.log = [RemoteCall.get [58]] ∧
    (a0.set (some kEmpty) v0 1000 5 readyClient).2.log
      = [RemoteCall.setex [58] (makeEnvelope v0 5 1000) (expirySeconds 1000)] ∧
    (a0.drop (some kEmpty) readyClient).2.log = [RemoteCall.del [58]] := by
  have h := no_key_shape_validation a0 kEmpty [58] v0 1000 5 readyClient rfl rfl
  exact ⟨rfl, rfl, h.1, h.2.1, h.2.2.2⟩

/-- C2 counterexample: the round trip fails at the falsy value `false`: on a
ready adapter, set(k, false, 1000) followed by get(k) rejects with
"Incorrect envelope structure" instead of returning an envelope whose item
is `false`. -/
theorem roundtrip_false_counterexample :
    (a0.get (some k0) (a0.set (some k0) (.bool false) 1000 5 readyClient).2).1
      = .error (.error incorrectEnvelopeMsg) := rfl

/-- C2 (amended): the set-then-get round trip holds exactly for the values
that pass the source's item-presence check — truthy values and the number 0;
`false` and `""` fail the check and are rejected by get with "Incorrect
envelope structure" (see the counterexample).  For a passing value v, on a
ready adapter with a nonzero write timestamp, get returns the stored
envelope and its item field is v itself. -/
theorem roundtrip_presence_check (a : CatboxRedis) (k : CacheKey) (sk : List Nat)
    (v : JSValue) (ttl now : Int) (c : Client)
    (hready : a.isReady c = true) (hsk : a.generateKey (some k) = .ok sk)
    (_httl : 0 < ttl) (hnow : now ≠ 0)
    (hitem : itemAbsentCheck (some v) = false) :
    (a.get (some k) (a.set (some k) v ttl now c).2).1
      = .ok (some (makeEnvelope v now ttl)) ∧
    (makeEnvelope v now ttl).field itemKey = some v := by
  have hfield : (makeEnvelope v now ttl).field itemKey = some v := rfl
  have hstored : (makeEnvelope v now ttl).field storedKey
      = some (.num now) := rfl
  have hfalsy : (makeEnvelope v now ttl).falsy = false := rfl
  have hnotTruthy : notTruthy (some (JSValue.num now)) = false := by
    simp [notTruthy, JSValue.falsy, hnow]
  refine ⟨?_, hfield⟩
  rw [set_state a k sk v ttl now c hready hsk]
  have hready2 : a.isReady
      { c with
          log := c.log ++
            [RemoteCall.setex sk (makeEnvelope v now ttl) (expirySeconds ttl)],
          store := (sk, Slot.value (makeEnvelope v now ttl)) :: c.store }
      = true := hready
  have hslot : storeLookup
      ((sk, Slot.value (makeEnvelope v now ttl)) :: c.store) sk
      = .value (makeEnvelope v now ttl) := by
    simp [storeLookup]
  exact get_wellformed a k sk _ (makeEnvelope v now ttl) hready2 hsk hslot hfalsy
    (by rw [hfield, hitem]) (by rw [hstored, hnotTruthy])

/-- Witness for C2 (amended) at the falsy-but-present value 0. -/
theorem roundtrip_presence_check_witness :
    a0.isReady readyClient = true ∧
    a0.generateKey (some k0) = .ok sk0 ∧
    ((0 : Int) < 1000) ∧ ((5 : Int) ≠ 0) ∧
    itemAbsentCheck (some (JSValue.num 0)) = false ∧
    (a0.get (some k0) (a0.set (some k0) (.num 0) 1000 5 readyClient).2).1
      = .ok (some (makeEnvelope (.num 0) 5 1000)) ∧
    (makeEnvelope (JSValue.num 0) 5 1000).field itemKey = some (.num 0) := by
  have h := roundtrip_presence_check a0 k0 sk0 (.num 0) 1000 5 readyClient
    rfl rfl (by omega) (by omega) rfl
  exact ⟨rfl, rfl, by omega, by omega, rfl, h.1, h.2⟩

/-- C7: on get with a ready connection and a present key, the decode of the
raw stored text is classified exactly as the source does it: absent or empty
raw text resolves null; unparsable text, or text parsing to a falsy value,
raises "Bad envelope content"; a truthy parse whose item fails the presence
check or whose stored field is falsy raises "Incorrect envelope structure";
otherwise the envelope is returned. -/
theorem get_decode_classification (a : CatboxRedis) (k : CacheKey) (sk : List Nat)
    (c : Client) (hready : a.isReady c = true)
    (hsk : a.generateKey (some k) = .ok sk) :
    (storeLookup c.store sk = .absent → (a.get (some k) c).1 = .ok none) ∧
    (storeLookup c.store sk = .emptyText → (a.get (some k) c).1 = .ok none) ∧
    (storeLookup c.store sk = .unparsable →
      (a.get (some k) c).1 = .error (.error badEnvelopeMsg)) ∧
    (∀ v, storeLookup c.store sk = .value v → v.falsy = true →
      (a.get (some k) c).1 = .error (.error badEnvelopeMsg)) ∧
    (∀ v, storeLookup c.store sk = .value v → v.falsy = false →
      (itemAbsentCheck (v.field itemKey) || notTruthy (v.field storedKey)) = true →
      (a.get (some k) c).1 = .error (.error incorrectEnvelopeMsg)) ∧
    (∀ v, storeLookup c.store sk = .value v → v.falsy = false →
      (itemAbsentCheck (v.field itemKey) || notTruthy (v.field storedKey)) = false →
      (a.get (some k) c).1 = .ok (some v)) := by
  refine ⟨fun hs => ?_, fun hs => ?_, fun hs => ?_, fun v hs hf => ?_,
    fun v hs hf hc => ?_, fun v hs hf hc => ?_⟩
  · simp [CatboxRedis.get, hready, hsk, hs]
  · simp [CatboxRedis.get, hready, hsk, hs]
  · simp [CatboxRedis.get, hready, hsk, hs]
  · simp [CatboxRedis.get, hready, hsk, hs, hf]
  · simp [CatboxRedis.get, hready, hsk, hs, hf, hc]
  · simp [CatboxRedis.get, hready, hsk, hs, hf, hc]

def envGood : JSValue :=
  .obj [(itemKey, .num 0), (storedKey, .num 5), (ttlKey, .num 100)]

def envBadItem : JSValue := .obj [(itemKey, .bool false), (storedKey, .num 5)]

def clientWith (s : Slot) : Client := ⟨readyStatus, [(sk0, s)], .ok (), []⟩

/-- Witness for C7: one concrete client per branch of the classification. -/
theorem get_decode_classification_witness :
    (a0.get (some k0) readyClient).1 = .ok none ∧
    (a0.get (some k0) (clientWith .emptyText)).1 = .ok none ∧
    (a0.get (some k0) (clientWith .unparsable)).1
      = .error (.error badEnvelopeMsg) ∧
    (a0.get (some k0) (clientWith (.value .null))).1
      = .error (.error badEnvelopeMsg) ∧
    (a0.get (some k0) (clientWith (.value envBadItem))).1
      = .error (.error incorrectEnvelopeMsg) ∧
    (a0.get (some k0) (clientWith (.value envGood))).1 = .ok (some envGood) := by
  refine ⟨?_, ?_, ?_, ?_, ?_, ?_⟩
  · exact (get_decode_classification a0 k0 sk0 readyClient rfl rfl).1 rfl
  · exact (get_decode_classification a0 k0 sk0 (clientWith .emptyText)
      rfl rfl).2.1 rfl
  · exact (get_decode_classification a0 k0 sk0 (clientWith .unparsable)
      rfl rfl).2.2.1 rfl
  · exact (get_decode_classification a0 k0 sk0 (clientWith (.value .null))
      rfl rfl).2.2.2.1 .null rfl rfl
  · exact (get_decode_classification a0 k0 sk0 (clientWith (.value envBadItem))
      rfl rfl).2.2.2.2.1 envBadItem rfl rfl rfl
  · exact (get_decode_classification a0 k0 sk0 (clientWith (.value envGood))
      rfl rfl).2.2.2.2.2 envGood rfl rfl rfl

/-- C10: get performs no local expiry check: any stored text that decodes to
a well-formed envelope (truthy parse, item passing the presence check,
truthy stored) is returned unchanged, whatever its ttl and stored fields
hold — the ttl field is never read on the read path. -/
theorem get_no_local_expiry_check (a : CatboxRedis) (k : CacheKey) (sk : List Nat)
    (c : Client) (v : JSValue)
    (hready : a.isReady c = true) (hsk : a.generateKey (some k) = .ok sk)
    (hslot : storeLookup c.store sk = .value v)
    (hfalsy : v.falsy = false)
    (hitem : itemAbsentCheck (v.field itemKey) = false)
    (hstored : notTruthy (v.field storedKey) = false) :
    (a.get (some k) c).1 = .ok (some v) :=
  get_wellformed a k sk c v hready hsk hslot hfalsy hitem hstored

def envExpired : JSValue :=
  .obj [(itemKey, .str "x"), (storedKey, .num 1), (ttlKey, .num (-50))]

/-- Witness for C10: an envelope whose ttl field is negative and whose stored
timestamp is in the distant past is returned unchanged. -/
theorem get_no_local_expiry_check_witness :
    a0.isReady (clientWith (.value envExpired)) = true ∧
    a0.generateKey (some k0) = .ok sk0 ∧
    storeLookup (clientWith (.value envExpired)).store sk0 = .value envExpired ∧
    envExpired.falsy = false ∧
    itemAbsentCheck (envExpired.field itemKey) = false ∧
    notTruthy (envExpired.field storedKey) = false ∧
    (a0.get (some k0) (clientWith (.value envExpired))).1
      = .ok (some envExpired) :=
  ⟨rfl, rfl, rfl, rfl, rfl, rfl,
   get_no_local_expiry_check a0 k0 sk0 (clientWith (.value envExpired)) envExpired
     rfl rfl rfl rfl rfl rfl⟩
